import Mathlib

/-!
# djs-premium — verification of the entitlement / code-redemption engine

Shallow embedding of the `djs-premium` package: the `PremiumManager`
entitlement engine, its node-cache backed cache layer, and the storage
contract with its two backends (`MongoStorage`, `LocalStorage`).

Timestamps are modelled as `Int` milliseconds since the epoch (the value of
`Date.prototype.getTime`).  Fallible operations return `Except`.  Each
public engine operation takes the current time `now` explicitly (the value
`new Date()` / `Date.now()` would observe during the call).
-/

/-- An entitlement record (`IPremium` in `types.d.ts`). `expiresAt`,
`activatedBy`, `activatedAt` are nullable; `none` models JS `null`. -/
structure IPremium where
  entityId : String
  isPremium : Bool
  expiresAt : Option Int
  activatedBy : Option String
  activatedAt : Option Int
deriving DecidableEq

/-- One entry of a redemption code's `activations` array. -/
structure Activation where
  entityId : String
  activatedAt : Int
deriving DecidableEq

/-- A redemption-code record (`IPremiumCode` in `types.d.ts`). -/
structure IPremiumCode where
  code : String
  duration : Int
  maxActivations : Nat
  activations : List Activation
  createdBy : String
  createdAt : Int
deriving DecidableEq

/-- The engine configuration after the constructor merged the caller's
config over the defaults (`Required<IPremiumConfig>`). -/
structure Config where
  cacheTTL : Int
  codeLength : Nat
  defaultPremiumDuration : Int
  maxActivationsPerCode : Nat
  preloadTables : Bool
deriving DecidableEq

/-- A value held in the NodeCache.  `undef` models JS `undefined` stored as
a value (the engine stores the raw result of a `&&` chain, which is
`undefined` when the entity record is absent); the other constructors model
the booleans, `IPremium | null` and `IPremiumCode | null` payloads the
engine caches under its three key categories. -/
inductive CacheVal where
  | undef
  | bool (b : Bool)
  | prem (p : Option IPremium)
  | codeInfo (c : Option IPremiumCode)
deriving DecidableEq

/-- JS truthiness of a cached value: `undefined` and `null` are falsy,
`false` is falsy, objects are truthy. -/
def CacheVal.jsTruthy : CacheVal → Bool
  | .undef => false
  | .bool b => b
  | .prem p => p.isSome
  | .codeInfo c => c.isSome

/-- Coercion of a cached value back to `IPremium | null` (only `.prem`
values are ever stored under `premiumStatus` keys). -/
def CacheVal.asPrem : CacheVal → Option IPremium
  | .prem p => p
  | _ => none

/-- Coercion of a cached value back to `IPremiumCode | null`. -/
def CacheVal.asCodeInfo : CacheVal → Option IPremiumCode
  | .codeInfo c => c
  | _ => none

/-- One stored node-cache entry: the value and its expiry instant
(node-cache stores `t = 0` for "no expiry", otherwise the absolute
millisecond timestamp after which the entry is dead). -/
structure CacheEntry where
  v : CacheVal
  t : Int
deriving DecidableEq

/-- The node-cache instance: `stdTTL` (seconds; `0` = unbounded) and the
key-value store, modelled as an association list where `set` replaces any
previous binding of the key. -/
structure NodeCache where
  stdTTL : Int
  data : List (String × CacheEntry)
deriving DecidableEq

namespace NodeCache

/-- `cache.set(key, value)`: stores the value with expiry
`now + stdTTL*1000` (or `0` = never when `stdTTL` is `0`). -/
def set (c : NodeCache) (now : Int) (k : String) (val : CacheVal) : NodeCache :=
  { c with data := (k, ⟨val, if c.stdTTL == 0 then 0 else now + c.stdTTL * 1000⟩)
      :: c.data.filter (fun p => p.1 != k) }

/-- `cache.get(key)`: `none` models JS `undefined` for a missing or expired
key; a live key returns its stored value (which may itself be `.undef`).
node-cache treats an entry as live when `t == 0 || t >= now`. -/
def get (c : NodeCache) (now : Int) (k : String) : Option CacheVal :=
  match c.data.find? (fun p => p.1 == k) with
  | none => none
  | some p => if p.2.t == 0 || now ≤ p.2.t then some p.2.v else none

/-- `cache.del(key)`. -/
def del (c : NodeCache) (k : String) : NodeCache :=
  { c with data := c.data.filter (fun p => p.1 != k) }

/-- `cache.flushAll()`. -/
def flushAll (c : NodeCache) : NodeCache :=
  { c with data := [] }

end NodeCache

/-- The persistent store seen through the storage contract (`IStorage`):
the two collections of records. -/
structure Storage where
  premiums : List IPremium
  codes : List IPremiumCode
deriving DecidableEq

namespace Storage

/-- `findPremium`: first record whose `entityId` matches, else null. -/
def findPremium (st : Storage) (entityId : String) : Option IPremium :=
  st.premiums.find? (fun p => p.entityId == entityId)

/-- Replace the first record with the same `entityId` (the
`premiums[index] = premium` branch of `LocalStorage.savePremium`). -/
def replacePremium : List IPremium → IPremium → List IPremium
  | [], _ => []
  | q :: rest, p =>
      if q.entityId == p.entityId then p :: rest else q :: replacePremium rest p

/-- `savePremium`: upsert by `entityId` (LocalStorage findIndex/replace-or-
push; MongoStorage findOneAndUpdate with upsert). -/
def savePremium (st : Storage) (p : IPremium) : Storage :=
  if st.premiums.any (fun q => q.entityId == p.entityId) then
    { st with premiums := replacePremium st.premiums p }
  else
    { st with premiums := st.premiums ++ [p] }

/-- `findPremiumCode`: first record whose `code` matches, else null. -/
def findPremiumCode (st : Storage) (code : String) : Option IPremiumCode :=
  st.codes.find? (fun c => c.code == code)

/-- Replace the first record with the same `code` key.  LocalStorage merges
with `\x7b...existing, ...premiumCode\x7d`; since `IPremiumCode` carries every
field, the spread-merge equals the new record. -/
def replacePremiumCode : List IPremiumCode → IPremiumCode → List IPremiumCode
  | [], _ => []
  | q :: rest, pc =>
      if q.code == pc.code then pc :: rest else q :: replacePremiumCode rest pc

/-- `savePremiumCode` with the behaviour the storage contract demands
(create-or-merge by `code`), which is what `LocalStorage` implements. -/
def savePremiumCode (st : Storage) (pc : IPremiumCode) : Storage :=
  if st.codes.any (fun q => q.code == pc.code) then
    { st with codes := replacePremiumCode st.codes pc }
  else
    { st with codes := st.codes ++ [pc] }

/-- `findExpiredPremiums` per the contract and the Mongo query
`\x7bisPremium: true, expiresAt: \x7b$lt: new Date()\x7d\x7d`: flagged premium with a
date-valued `expiresAt` strictly before now (`null` never matches `$lt`
against a Date). -/
def findExpiredPremiums (st : Storage) (now : Int) : List IPremium :=
  st.premiums.filter (fun p => p.isPremium &&
    (match p.expiresAt with
     | some t => decide (t < now)
     | none => false))

/-- `getAllPremiums`: full scan. -/
def getAllPremiums (st : Storage) : List IPremium :=
  st.premiums

/-- `getAllPremiumCodes`: full scan. -/
def getAllPremiumCodes (st : Storage) : List IPremiumCode :=
  st.codes

end Storage

/-- The five domain events, with the payload each emission site passes.
`premiumCodeCreated` carries the raw `duration` argument of
`createPremiumCode` (possibly `undefined`, modelled `none`, or a falsy 0),
exactly as the source emits it. -/
inductive Event where
  | premiumAdded (entityId : String) (expiresAt : Int) (activatedBy : String)
  | premiumRemoved (entityId : String)
  | premiumCodeCreated (code : String) (duration : Option Int) (createdBy : String)
  | premiumCodeRedeemed (entityId : String) (code : String) (redeemedBy : String)
  | premiumExtended (entityId : String) (newExpiresAt : Int)
deriving DecidableEq

/-- The full engine state: configuration, backing store, cache, and the
append-only log of events emitted so far. -/
structure EngineState where
  config : Config
  storage : Storage
  cache : NodeCache
  events : List Event
deriving DecidableEq

/-- JS `x || dflt` on a `number | undefined` argument: `undefined` and `0`
are falsy and select the default. -/
def jsOrInt (x : Option Int) (dflt : Int) : Int :=
  match x with
  | none => dflt
  | some v => if v == 0 then dflt else v

/-- JS `x || dflt` on a nonnegative `number | undefined` argument. -/
def jsOrNat (x : Option Nat) (dflt : Nat) : Nat :=
  match x with
  | none => dflt
  | some v => if v == 0 then dflt else v

/-- `Math.ceil (a / b)` for integer `a` and positive integer `b` (for the
millisecond quantities involved the floating-point division the source
performs is exact up to the ceiling). -/
def ceilDiv (a b : Int) : Int :=
  -((-a).ediv b)

namespace PremiumManager

/-- `getCacheKey(type, id)` = `` `${type}_${id}` ``. -/
def getCacheKey (type id : String) : String :=
  type ++ "_" ++ id

/-- The constructor: merges the defaults under the caller's config, picks
the storage backend, and creates the NodeCache with `stdTTL = cacheTTL`.
It performs no preload (faithful to the source: `preloadTables` is invoked
only from `clearCache`). -/
def construct (config : Config) (storage : Storage) : EngineState :=
  { config := config
    storage := storage
    cache := { stdTTL := config.cacheTTL, data := [] }
    events := [] }

/-- `removePremium(entityId)`: no-op when the entity is unknown; otherwise
clears the flag and expiry, persists, deletes the two cache entries and
emits `premiumRemoved`. -/
def removePremium (s : EngineState) (entityId : String) : EngineState :=
  match s.storage.findPremium entityId with
  | none => s
  | some e =>
      { s with
        storage := s.storage.savePremium { e with isPremium := false, expiresAt := none }
        cache := (s.cache.del (getCacheKey "isPremium" entityId)).del
          (getCacheKey "premiumStatus" entityId)
        events := s.events ++ [Event.premiumRemoved entityId] }

/-- `addPremium(entityId, duration, activatedBy)`: persists a fresh
entitlement expiring `duration` days from now, invalidates the two cache
entries and emits `premiumAdded`. -/
def addPremium (s : EngineState) (now : Int) (entityId : String) (duration : Int)
    (activatedBy : String) : EngineState :=
  { s with
    storage := s.storage.savePremium
      { entityId := entityId
        isPremium := true
        expiresAt := some (now + duration * 86400000)
        activatedBy := some activatedBy
        activatedAt := some now }
    cache := (s.cache.del (getCacheKey "isPremium" entityId)).del
      (getCacheKey "premiumStatus" entityId)
    events := s.events ++ [Event.premiumAdded entityId (now + duration * 86400000) activatedBy] }

/-- The effective-status expression of `isPremium` for a present entity:
`entity.isPremium && (!entity.expiresAt || entity.expiresAt > new Date())`
(a Date object is always truthy, `null` is falsy). -/
def effectiveStatus (e : IPremium) (now : Int) : Bool :=
  e.isPremium &&
    (match e.expiresAt with
     | none => true
     | some t => decide (now < t))

/-- The cache-miss body of `isPremium`: loads the entity, evaluates
`entity?.isPremium && (!entity.expiresAt || entity.expiresAt > new Date())`
(which is JS `undefined` when the entity is absent), runs the lazy-expiry
removal when the stored flag is set but the computed status is false,
caches the raw computed value, and returns `computed || false`.  The last
component of the result records that storage was consulted. -/
def isPremiumMiss (s : EngineState) (now : Int) (entityId cacheKey : String) :
    Bool × EngineState × Bool :=
  match s.storage.findPremium entityId with
  | none =>
      (false, { s with cache := s.cache.set now cacheKey CacheVal.undef }, true)
  | some e =>
      let b : Bool := effectiveStatus e now
      let s1 := if !b && e.isPremium then removePremium s entityId else s
      (b, { s1 with cache := s1.cache.set now cacheKey (CacheVal.bool b) }, true)

/-- `isPremium(entityId)`: cache-first (`cachedResult !== undefined` is the
hit test, so a cached `undefined` value falls through to the miss path);
on miss defers to `isPremiumMiss`. -/
def isPremium (s : EngineState) (now : Int) (entityId : String) :
    Bool × EngineState × Bool :=
  match s.cache.get now (getCacheKey "isPremium" entityId) with
  | some v =>
      if v == CacheVal.undef then isPremiumMiss s now entityId (getCacheKey "isPremium" entityId)
      else (v.jsTruthy, s, false)
  | none => isPremiumMiss s now entityId (getCacheKey "isPremium" entityId)

/-- The cache-miss body of `getPremiumStatus`: reads storage and caches the
result, including a null result. -/
def getPremiumStatusMiss (s : EngineState) (now : Int) (entityId cacheKey : String) :
    Option IPremium × EngineState :=
  (s.storage.findPremium entityId,
   { s with cache := s.cache.set now cacheKey (CacheVal.prem (s.storage.findPremium entityId)) })

/-- `getPremiumStatus(entityId)`: cache-first on the `premiumStatus` key. -/
def getPremiumStatus (s : EngineState) (now : Int) (entityId : String) :
    Option IPremium × EngineState :=
  match s.cache.get now (getCacheKey "premiumStatus" entityId) with
  | some v =>
      if v == CacheVal.undef then
        getPremiumStatusMiss s now entityId (getCacheKey "premiumStatus" entityId)
      else (v.asPrem, s)
  | none => getPremiumStatusMiss s now entityId (getCacheKey "premiumStatus" entityId)

/-- `getPremiumTimeRemaining(entityId)`: null when the stored status is
absent, not flagged, or has no expiry; otherwise
`Math.max(0, Math.ceil((expiresAt - now) / 86400000))`. -/
def getPremiumTimeRemaining (s : EngineState) (now : Int) (entityId : String) :
    Option Int × EngineState :=
  match getPremiumStatus s now entityId with
  | (status, s1) =>
      match status with
      | none => (none, s1)
      | some st =>
          if !st.isPremium then (none, s1)
          else
            match st.expiresAt with
            | none => (none, s1)
            | some t => (some (max 0 (ceilDiv (t - now) 86400000)), s1)

/-- `createPremiumCode(createdBy, duration?, maxActivations?)`: persists a
new code whose `duration`/`maxActivations` fall back to the configured
defaults on falsy arguments, with an empty activations array, and emits
`premiumCodeCreated` carrying the raw `duration` argument.  The generated
token is passed in as `generated` (the token generator is an external
collaborator). -/
def createPremiumCode (s : EngineState) (now : Int) (generated createdBy : String)
    (duration : Option Int) (maxActs : Option Nat) : String × EngineState :=
  (generated,
   { s with
     storage := s.storage.savePremiumCode
       { code := generated
         duration := jsOrInt duration s.config.defaultPremiumDuration
         maxActivations := jsOrNat maxActs s.config.maxActivationsPerCode
         activations := []
         createdBy := createdBy
         createdAt := now }
     events := s.events ++ [Event.premiumCodeCreated generated duration createdBy] })

/-- `redeemPremiumCode(entityId, code, redeemedBy)`: false without mutation
when the code is unknown or `activations.length >= maxActivations`;
otherwise appends the activation, persists the code, grants premium via
`addPremium`, emits `premiumCodeRedeemed` and returns true. -/
def redeemPremiumCode (s : EngineState) (now : Int) (entityId code redeemedBy : String) :
    Bool × EngineState :=
  match s.storage.findPremiumCode code with
  | none => (false, s)
  | some pc =>
      if pc.maxActivations ≤ pc.activations.length then (false, s)
      else
        let upd := { pc with activations := pc.activations ++ [⟨entityId, now⟩] }
        let s1 := { s with storage := s.storage.savePremiumCode upd }
        let s2 := addPremium s1 now entityId pc.duration redeemedBy
        (true, { s2 with events := s2.events ++ [Event.premiumCodeRedeemed entityId code redeemedBy] })

/-- `checkExpiredPremiums()`: removes premium from every storage-side
expired entitlement, sequentially. -/
def checkExpiredPremiums (s : EngineState) (now : Int) : EngineState :=
  (s.storage.findExpiredPremiums now).foldl (fun st e => removePremium st e.entityId) s

/-- The cache-miss body of `getPremiumCodeInfo`. -/
def getPremiumCodeInfoMiss (s : EngineState) (now : Int) (code cacheKey : String) :
    Option IPremiumCode × EngineState :=
  (s.storage.findPremiumCode code,
   { s with cache := s.cache.set now cacheKey (CacheVal.codeInfo (s.storage.findPremiumCode code)) })

/-- `getPremiumCodeInfo(code)`: cache-first on the `premiumCodeInfo` key. -/
def getPremiumCodeInfo (s : EngineState) (now : Int) (code : String) :
    Option IPremiumCode × EngineState :=
  match s.cache.get now (getCacheKey "premiumCodeInfo" code) with
  | some v =>
      if v == CacheVal.undef then
        getPremiumCodeInfoMiss s now code (getCacheKey "premiumCodeInfo" code)
      else (v.asCodeInfo, s)
  | none => getPremiumCodeInfoMiss s now code (getCacheKey "premiumCodeInfo" code)

/-- `extendPremium(entityId, days)`: throws `"Entity is not premium"` when
the entity is unknown or its raw stored flag is false; otherwise adds
`days * 86400000` ms to the existing expiry (or to now when the expiry is
null), persists, invalidates the two cache entries, and emits
`premiumExtended`. -/
def extendPremium (s : EngineState) (now : Int) (entityId : String) (days : Int) :
    Except String EngineState :=
  match s.storage.findPremium entityId with
  | none => Except.error "Entity is not premium"
  | some e =>
      if !e.isPremium then Except.error "Entity is not premium"
      else
        let newExpiresAt : Int :=
          match e.expiresAt with
          | some t => t + days * 86400000
          | none => now + days * 86400000
        Except.ok
          { s with
            storage := s.storage.savePremium { e with expiresAt := some newExpiresAt }
            cache := (s.cache.del (getCacheKey "isPremium" entityId)).del
              (getCacheKey "premiumStatus" entityId)
            events := s.events ++ [Event.premiumExtended entityId newExpiresAt] }

/-- The `premiums.forEach` loop of `preloadTables`: for each record, set
the `isPremium` key to the stored flag and the `premiumStatus` key to the
record. -/
def preloadPremiums (now : Int) (l : List IPremium) (s : EngineState) : EngineState :=
  l.foldl
    (fun st p =>
      let c1 := st.cache.set now (getCacheKey "isPremium" p.entityId) (CacheVal.bool p.isPremium)
      let c2 := c1.set now (getCacheKey "premiumStatus" p.entityId) (CacheVal.prem (some p))
      { st with cache := c2 }) s

/-- The `premiumCodes.forEach` loop of `preloadTables`. -/
def preloadCodes (now : Int) (l : List IPremiumCode) (s : EngineState) : EngineState :=
  l.foldl
    (fun st c =>
      let c1 := st.cache.set now (getCacheKey "premiumCodeInfo" c.code) (CacheVal.codeInfo (some c))
      { st with cache := c1 }) s

/-- `preloadTables()`: fetches all entitlements and all codes and populates
the `isPremium`, `premiumStatus` and `premiumCodeInfo` cache keys for every
record. -/
def preloadTables (s : EngineState) (now : Int) : EngineState :=
  preloadCodes now s.storage.getAllPremiumCodes
    (preloadPremiums now s.storage.getAllPremiums s)

/-- `clearCache()`: flushes the whole cache, then re-warms it when
`preloadTables` is configured. -/
def clearCache (s : EngineState) (now : Int) : EngineState :=
  let s1 := { s with cache := s.cache.flushAll }
  if s.config.preloadTables then preloadTables s1 now else s1

end PremiumManager

/-- One public engine operation together with the instant at which it runs
and its arguments; used to quantify over sequential histories. -/
inductive Op where
  | isPremium (now : Int) (entityId : String)
  | addPremium (now : Int) (entityId : String) (duration : Int) (activatedBy : String)
  | removePremium (entityId : String)
  | getPremiumStatus (now : Int) (entityId : String)
  | getPremiumTimeRemaining (now : Int) (entityId : String)
  | createPremiumCode (now : Int) (generated createdBy : String)
      (duration : Option Int) (maxActs : Option Nat)
  | redeemPremiumCode (now : Int) (entityId code redeemedBy : String)
  | checkExpiredPremiums (now : Int)
  | getPremiumCodeInfo (now : Int) (code : String)
  | extendPremium (now : Int) (entityId : String) (days : Int)
  | clearCache (now : Int)
deriving DecidableEq

/-- Apply one operation to the engine state (discarding returned values;
an `extendPremium` that throws leaves the state unchanged, since the throw
happens before any mutation). -/
def applyOp (s : EngineState) : Op → EngineState
  | .isPremium now e => (PremiumManager.isPremium s now e).2.1
  | .addPremium now e d a => PremiumManager.addPremium s now e d a
  | .removePremium e => PremiumManager.removePremium s e
  | .getPremiumStatus now e => (PremiumManager.getPremiumStatus s now e).2
  | .getPremiumTimeRemaining now e => (PremiumManager.getPremiumTimeRemaining s now e).2
  | .createPremiumCode now gen cb d m => (PremiumManager.createPremiumCode s now gen cb d m).2
  | .redeemPremiumCode now e c r => (PremiumManager.redeemPremiumCode s now e c r).2
  | .checkExpiredPremiums now => PremiumManager.checkExpiredPremiums s now
  | .getPremiumCodeInfo now c => (PremiumManager.getPremiumCodeInfo s now c).2
  | .extendPremium now e d =>
      match PremiumManager.extendPremium s now e d with
      | .ok s1 => s1
      | .error _ => s
  | .clearCache now => PremiumManager.clearCache s now

/-- Run a sequence of engine operations. -/
def runOps (s : EngineState) : List Op → EngineState
  | [] => s
  | op :: rest => runOps (applyOp s op) rest

/-- The §3 code invariant: every stored redemption code's activation count
is bounded by its capacity. -/
def CodeInv (st : Storage) : Prop :=
  ∀ pc ∈ st.codes, pc.activations.length ≤ pc.maxActivations

instance (st : Storage) : Decidable (CodeInv st) := by
  unfold CodeInv; infer_instance

/-- The empty initial storage. -/
def emptyStorage : Storage :=
  ⟨[], []⟩

deriving instance DecidableEq for Except

/-- Mongo duplicate-key (E11000) error, raised when an insert violates a
unique index. -/
inductive MongoError where
  | duplicateKey
deriving DecidableEq

namespace MongoStorage

/-- `MongoStorage.savePremiumCode`: `this.premiumCodeModel.create(premiumCode)`.
`Model.create` inserts a new document; with the schema's unique index on
`code` (`PremiumCodeSchema`: `unique: true`), inserting an already-present
key fails with a duplicate-key error.  It never updates an existing
document. -/
def savePremiumCode (codes : List IPremiumCode) (pc : IPremiumCode) :
    Except MongoError (List IPremiumCode) :=
  if codes.any (fun c => c.code == pc.code) then Except.error MongoError.duplicateKey
  else Except.ok (codes ++ [pc])

end MongoStorage

namespace LocalStorage

/-- `LocalStorage.savePremiumCode`: looks up the code by key; when present,
replaces it with the spread-merge of old and new (equal to the new record,
since an `IPremiumCode` carries every field); otherwise pushes it. -/
def savePremiumCode (codes : List IPremiumCode) (pc : IPremiumCode) :
    List IPremiumCode :=
  if codes.any (fun c => c.code == pc.code) then Storage.replacePremiumCode codes pc
  else codes ++ [pc]

end LocalStorage

/-- An entitlement record as `LocalStorage` reads it back from
`premiums.json`: `JSON.stringify` serialized each `Date` through `toJSON`
to an ISO-8601 string, and `JSON.parse` returns it as a plain string, so
the date-typed fields come back as `Option String`. -/
structure LocalPremiumRecord where
  entityId : String
  isPremium : Bool
  expiresAt : Option String
  activatedBy : Option String
  activatedAt : Option String
deriving DecidableEq

/-- The JS abstract relational comparison `s < d` between a string and a
`Date`: both operands are coerced with ToPrimitive (number hint) — the
Date to its millisecond timestamp, the string through ToNumber.  `toNum`
models ToNumber on strings, with `none` for NaN; a NaN operand makes every
relational comparison false. -/
def jsLtStringDate (toNum : String → Option Int) (s : String) (d : Int) : Bool :=
  match toNum s with
  | none => false
  | some n => decide (n < d)

namespace LocalStorage

/-- `LocalStorage.findExpiredPremiums` over the JSON-parsed file contents:
`premiums.filter (p => p.isPremium && p.expiresAt && p.expiresAt < now)`.
`p.expiresAt` is truthy when non-null and non-empty; `<` is the
string-versus-Date comparison above. -/
def findExpiredPremiums (toNum : String → Option Int)
    (premiums : List LocalPremiumRecord) (now : Int) : List LocalPremiumRecord :=
  premiums.filter (fun p => p.isPremium &&
    (match p.expiresAt with
     | none => false
     | some str => !(str == "") && jsLtStringDate toNum str now))

end LocalStorage

/-- A subscribed event listener, identified by `id`; `ok = false` models a
listener whose callback throws when invoked. -/
structure Listener where
  id : Nat
  ok : Bool
deriving DecidableEq

/-- Node's `EventEmitter.emit`: invokes the listeners synchronously in
registration order; there is no per-listener isolation, so the first
exception propagates out of `emit` immediately and the remaining listeners
are not invoked.  Returns the ids actually invoked and the id of the
throwing listener, if any. -/
def emitToListeners : List Listener → List Nat × Option Nat
  | [] => ([], none)
  | l :: rest =>
      if l.ok then
        let r := emitToListeners rest
        (l.id :: r.1, r.2)
      else ([l.id], some l.id)

/-- Outcome of an emitting engine operation run against a concrete listener
list: whether the operation terminated by rethrowing a listener exception
(and whose), the state its side effects left behind, and the listeners
invoked. -/
structure EmitResult where
  threw : Option Nat
  state : EngineState
  invoked : List Nat
deriving DecidableEq

/-- `addPremium` run with an explicit listener list subscribed to
`premiumAdded`.  The storage write and cache invalidation happen before
`this.emit(...)`; the engine extends `EventEmitter` and calls `emit`
directly, with no try/catch, so a listener exception propagates out of the
operation after the persistence already happened. -/
def addPremiumWithListeners (s : EngineState) (now : Int) (entityId : String)
    (duration : Int) (activatedBy : String) (listeners : List Listener) : EmitResult :=
  let s1 := PremiumManager.addPremium s now entityId duration activatedBy
  let r := emitToListeners listeners
  { threw := r.2, state := s1, invoked := r.1 }

/-! ## Concrete fixtures used by the closed-form theorems and witnesses -/

/-- A concrete merged configuration: `cacheTTL 0`, `codeLength 12`,
`defaultPremiumDuration 30`, `maxActivationsPerCode 1`, no preload. -/
def cfgW : Config :=
  ⟨0, 12, 30, 1, false⟩

/-- A freshly constructed engine over empty storage. -/
def s0W : EngineState :=
  PremiumManager.construct cfgW emptyStorage

/-- Create a single-use code and redeem it twice. -/
def opsW : List Op :=
  [Op.createPremiumCode 0 "abc" "admin" none none,
   Op.redeemPremiumCode 1 "e" "abc" "r",
   Op.redeemPremiumCode 2 "f" "abc" "r"]

/-- Grant entity `e` one day of premium at time 0 (expiry 86400000), then
query `isPremium` at time 500: the true result is cached with no TTL. -/
def sC3 : EngineState :=
  runOps s0W [Op.addPremium 0 "e" 1 "a", Op.isPremium 500 "e"]

/-- Grant entity `e` one day of premium at time 0 (expiry 86400000). -/
def sGrant1 : EngineState :=
  runOps s0W [Op.addPremium 0 "e" 1 "a"]

/-- Grant entity `e` thirty days of premium at time 0 (expiry 2592000000). -/
def sGrant30 : EngineState :=
  runOps s0W [Op.addPremium 0 "e" 30 "a"]

/-- The entitlement record `sGrant1` stores for `e`. -/
def entGrant1 : IPremium :=
  ⟨"e", true, some 86400000, some "a", some 0⟩

/-- The entitlement record `sGrant30` stores for `e`. -/
def entGrant30 : IPremium :=
  ⟨"e", true, some 2592000000, some "a", some 0⟩

/-- A stored single-use redemption code. -/
def codeA : IPremiumCode :=
  ⟨"abc", 30, 1, [], "admin", 0⟩

/-- The same code after `redeemPremiumCode` appended an activation — the
record `savePremiumCode` is then asked to persist over the existing one. -/
def codeA2 : IPremiumCode :=
  ⟨"abc", 30, 1, [⟨"e", 5⟩], "admin", 0⟩

/-- Storage holding one premium entitlement and one code, used to show the
constructor performs no preload. -/
def stC6 : Storage :=
  ⟨[⟨"e", true, some 86400000, some "a", some 0⟩], [codeA]⟩

/-- A configuration with `preloadTables := true`. -/
def cfgC6 : Config :=
  ⟨0, 12, 30, 1, true⟩

/-- The ISO-8601 string `JSON.stringify` produces for the Date
2020-01-01T00:00:00Z. -/
def isoStr : String :=
  "2020-01-01T00:00:00.000Z"

/-- 2020-01-01T00:00:00Z in epoch milliseconds. -/
def t2020 : Int :=
  1577836800000

/-- An invocation instant well after `t2020` (2023-11-14T22:13:20Z). -/
def nowC7 : Int :=
  1700000000000

/-- A long-expired, premium-flagged entitlement as the storage contract
(and the Mongo backend) sees it. -/
def premC7 : IPremium :=
  ⟨"e", true, some t2020, some "a", some t2020⟩

/-- The same entitlement as `LocalStorage` reads it back from
`premiums.json`: the expiry is the ISO string. -/
def localFileC7 : List LocalPremiumRecord :=
  [⟨"e", true, some isoStr, some "a", some isoStr⟩]

/-- State after the first `isPremium` query for a never-granted entity:
the engine cached the raw `undefined` result under the entity's key. -/
def s9a : EngineState :=
  (PremiumManager.isPremium s0W 0 "e").2.1

/-! ## Library of helper lemmas -/

theorem getCacheKey_ne_of_length_ne (t1 t2 id : String) (h : t1.length ≠ t2.length) :
    PremiumManager.getCacheKey t1 id ≠ PremiumManager.getCacheKey t2 id := by
  intro he
  have hlen := congrArg String.length he
  simp only [PremiumManager.getCacheKey, String.length_append] at hlen
  omega

theorem key_isPremium_ne_premiumStatus (id : String) :
    PremiumManager.getCacheKey "isPremium" id ≠ PremiumManager.getCacheKey "premiumStatus" id := by
  exact getCacheKey_ne_of_length_ne "isPremium" "premiumStatus" id (by decide)

theorem find?_filter_bne_self (l : List (String × CacheEntry)) (k : String) :
    (l.filter (fun p => p.1 != k)).find? (fun p => p.1 == k) = none := by
  induction l with
  | nil => rfl
  | cons x xs ih =>
      by_cases hx : x.1 = k
      · simp [List.filter_cons, hx, ih]
      · simp [List.filter_cons, hx, List.find?, ih]

theorem find?_filter_bne (l : List (String × CacheEntry)) (k k2 : String) (h : k2 ≠ k) :
    (l.filter (fun p => p.1 != k)).find? (fun p => p.1 == k2) =
      l.find? (fun p => p.1 == k2) := by
  induction l with
  | nil => rfl
  | cons x xs ih =>
      rw [List.filter_cons]
      by_cases hx : x.1 = k
      · have hxf : (x.1 != k) = false := by simp [hx]
        have hx2 : (x.1 == k2) = false := by
          simp only [beq_eq_false_iff_ne, ne_eq, hx]
          exact fun hh => h hh.symm
        rw [hxf]
        simp only [Bool.false_eq_true, if_false]
        rw [List.find?_cons, hx2, ih]
      · have hxf : (x.1 != k) = true := by simp [hx]
        rw [hxf]
        simp only [if_true]
        rw [List.find?_cons, List.find?_cons]
        cases hk2 : (x.1 == k2) <;> simp [ih]

namespace NodeCache

theorem stdTTL_set (c : NodeCache) (now : Int) (k : String) (v : CacheVal) :
    (c.set now k v).stdTTL = c.stdTTL := rfl

theorem stdTTL_del (c : NodeCache) (k : String) :
    (c.del k).stdTTL = c.stdTTL := rfl

theorem get_set_self (c : NodeCache) (now : Int) (k : String) (v : CacheVal)
    (h : 0 ≤ c.stdTTL) :
    (c.set now k v).get now k = some v := by
  unfold set get
  simp only [List.find?, beq_self_eq_true, cond_true]
  by_cases h0 : c.stdTTL = 0
  · simp [h0]
  · have h1 : 1 ≤ c.stdTTL := by omega
    have : now ≤ now + c.stdTTL * 1000 := by omega
    simp [h0, this]

theorem get_set_ne (c : NodeCache) (now now2 : Int) (k k2 : String) (v : CacheVal)
    (h : k2 ≠ k) :
    (c.set now k v).get now2 k2 = c.get now2 k2 := by
  unfold set get
  have hk : (k == k2) = false := by
    simp; exact fun hh => h hh.symm
  simp only [List.find?, hk, cond_false]
  rw [find?_filter_bne _ _ _ h]

theorem get_del_self (c : NodeCache) (now : Int) (k : String) :
    (c.del k).get now k = none := by
  unfold del get
  rw [find?_filter_bne_self]

theorem get_del_ne (c : NodeCache) (now : Int) (k k2 : String) (h : k2 ≠ k) :
    (c.del k).get now k2 = c.get now k2 := by
  unfold del get
  rw [find?_filter_bne _ _ _ h]

end NodeCache

namespace Storage

theorem replacePremium_find? (l : List IPremium) (p : IPremium) :
    l.any (fun q => q.entityId == p.entityId) = true →
    (replacePremium l p).find? (fun q => q.entityId == p.entityId) = some p := by
  induction l with
  | nil => intro h; simp at h
  | cons q rest ih =>
      intro h
      by_cases hq : q.entityId = p.entityId
      · simp [replacePremium, hq, List.find?]
      · have hq2 : (q.entityId == p.entityId) = false := by simp [hq]
        have hrest : rest.any (fun q => q.entityId == p.entityId) = true := by
          simp [List.any_cons, hq2] at h
          simpa using h
        simp [replacePremium, hq2, List.find?, ih hrest]

theorem findPremium_savePremium_self (st : Storage) (p : IPremium) :
    (st.savePremium p).findPremium p.entityId = some p := by
  unfold savePremium findPremium
  by_cases h : st.premiums.any (fun q => q.entityId == p.entityId) = true
  · simp only [h, if_true]
    exact replacePremium_find? st.premiums p h
  · have hb : st.premiums.any (fun q => q.entityId == p.entityId) = false := by
      simpa using h
    simp only [hb, Bool.false_eq_true, if_false]
    have hnone : st.premiums.find? (fun q => q.entityId == p.entityId) = none := by
      rw [List.find?_eq_none]
      intro x hx
      have := (List.any_eq_false.mp hb) x hx
      simpa using this
    rw [List.find?_append, hnone]
    simp [List.find?]

theorem findPremium_key (st : Storage) (entityId : String) (e : IPremium)
    (hf : st.findPremium entityId = some e) : e.entityId = entityId := by
  have := List.find?_some hf
  simpa using this

theorem replacePremiumCode_find? (l : List IPremiumCode) (pc : IPremiumCode) :
    l.any (fun q => q.code == pc.code) = true →
    (replacePremiumCode l pc).find? (fun q => q.code == pc.code) = some pc := by
  induction l with
  | nil => intro h; simp at h
  | cons q rest ih =>
      intro h
      by_cases hq : q.code = pc.code
      · simp [replacePremiumCode, hq, List.find?]
      · have hq2 : (q.code == pc.code) = false := by simp [hq]
        have hrest : rest.any (fun q => q.code == pc.code) = true := by
          simp [List.any_cons, hq2] at h
          simpa using h
        simp [replacePremiumCode, hq2, List.find?, ih hrest]

theorem findPremiumCode_savePremiumCode_self (st : Storage) (pc : IPremiumCode) :
    (st.savePremiumCode pc).findPremiumCode pc.code = some pc := by
  unfold savePremiumCode findPremiumCode
  by_cases h : st.codes.any (fun q => q.code == pc.code) = true
  · simp only [h, if_true]
    exact replacePremiumCode_find? st.codes pc h
  · have hb : st.codes.any (fun q => q.code == pc.code) = false := by simpa using h
    simp only [hb, Bool.false_eq_true, if_false]
    have hnone : st.codes.find? (fun q => q.code == pc.code) = none := by
      rw [List.find?_eq_none]
      intro x hx
      have := (List.any_eq_false.mp hb) x hx
      simpa using this
    rw [List.find?_append, hnone]
    simp [List.find?]

theorem codes_savePremium (st : Storage) (p : IPremium) :
    (st.savePremium p).codes = st.codes := by
  unfold savePremium
  split <;> rfl

theorem premiums_savePremiumCode (st : Storage) (pc : IPremiumCode) :
    (st.savePremiumCode pc).premiums = st.premiums := by
  unfold savePremiumCode
  split <;> rfl

end Storage

theorem codeInv_of_codes_eq (st1 st2 : Storage) (he : st1.codes = st2.codes)
    (h : CodeInv st2) : CodeInv st1 := by
  intro c hc
  exact h c (he ▸ hc)

theorem replacePremiumCode_mem (l : List IPremiumCode) (pc c : IPremiumCode) :
    c ∈ Storage.replacePremiumCode l pc → c ∈ l ∨ c = pc := by
  induction l with
  | nil => intro hc; simp [Storage.replacePremiumCode] at hc
  | cons q rest ih =>
      intro hc
      unfold Storage.replacePremiumCode at hc
      cases hqb : (q.code == pc.code)
      · rw [hqb] at hc
        simp only [Bool.false_eq_true, if_false, List.mem_cons] at hc
        rcases hc with hc | hc
        · exact Or.inl (by simp [hc])
        · rcases ih hc with h1 | h1
          · exact Or.inl (by simp [h1])
          · exact Or.inr h1
      · rw [hqb] at hc
        simp only [if_true, List.mem_cons] at hc
        rcases hc with hc | hc
        · exact Or.inr hc
        · exact Or.inl (by simp [hc])

theorem codeInv_savePremiumCode (st : Storage) (pc : IPremiumCode)
    (h : CodeInv st) (hpc : pc.activations.length ≤ pc.maxActivations) :
    CodeInv (st.savePremiumCode pc) := by
  intro c hc
  unfold Storage.savePremiumCode at hc
  by_cases hany : st.codes.any (fun q => q.code == pc.code) = true
  · rw [if_pos hany] at hc
    rcases replacePremiumCode_mem st.codes pc c hc with h1 | h1
    · exact h c h1
    · rw [h1]; exact hpc
  · rw [if_neg hany] at hc
    simp only [List.mem_append, List.mem_singleton] at hc
    rcases hc with h1 | h1
    · exact h c h1
    · rw [h1]; exact hpc

namespace PremiumManager

theorem codes_addPremium (s : EngineState) (now : Int) (e : String) (d : Int) (a : String) :
    (addPremium s now e d a).storage.codes = s.storage.codes := by
  simp [addPremium, Storage.codes_savePremium]

theorem codes_removePremium (s : EngineState) (e : String) :
    (removePremium s e).storage.codes = s.storage.codes := by
  unfold removePremium
  cases hf : s.storage.findPremium e
  · rfl
  · simp [Storage.codes_savePremium]

theorem codes_isPremiumMiss (s : EngineState) (now : Int) (e k : String) :
    (isPremiumMiss s now e k).2.1.storage.codes = s.storage.codes := by
  unfold isPremiumMiss
  cases hf : s.storage.findPremium e
  · rfl
  · simp only []
    split
    · simp [codes_removePremium]
    · rfl

theorem codes_isPremium (s : EngineState) (now : Int) (e : String) :
    (isPremium s now e).2.1.storage.codes = s.storage.codes := by
  unfold isPremium
  cases hg : s.cache.get now (getCacheKey "isPremium" e) with
  | none => exact codes_isPremiumMiss s now e _
  | some v =>
      cases hv : (v == CacheVal.undef)
      · simp only [hv, Bool.false_eq_true, if_false]
      · simp only [hv, if_true]
        exact codes_isPremiumMiss s now e _

theorem codes_foldl_removePremium (l : List IPremium) (s : EngineState) :
    (l.foldl (fun st e => removePremium st e.entityId) s).storage.codes =
      s.storage.codes := by
  induction l generalizing s with
  | nil => rfl
  | cons p rest ih =>
      rw [List.foldl_cons, ih, codes_removePremium]

theorem codes_checkExpiredPremiums (s : EngineState) (now : Int) :
    (checkExpiredPremiums s now).storage.codes = s.storage.codes := by
  unfold checkExpiredPremiums
  exact codes_foldl_removePremium _ s

theorem storage_getPremiumStatus (s : EngineState) (now : Int) (e : String) :
    (getPremiumStatus s now e).2.storage = s.storage := by
  unfold getPremiumStatus getPremiumStatusMiss
  cases hg : s.cache.get now (getCacheKey "premiumStatus" e) with
  | none => rfl
  | some v =>
      cases hv : (v == CacheVal.undef)
      · simp only [hv, Bool.false_eq_true, if_false]
      · simp only [hv, if_true]

theorem snd_getPremiumTimeRemaining (s : EngineState) (now : Int) (e : String) :
    (getPremiumTimeRemaining s now e).2 = (getPremiumStatus s now e).2 := by
  unfold getPremiumTimeRemaining
  rcases hs : getPremiumStatus s now e with ⟨status, s1⟩
  cases status
  · rfl
  · rename_i st
    cases hb : st.isPremium
    · simp [hb]
    · simp only [hb, Bool.not_true, Bool.false_eq_true, if_false]
      cases st.expiresAt
      · rfl
      · rfl

theorem storage_getPremiumCodeInfo (s : EngineState) (now : Int) (c : String) :
    (getPremiumCodeInfo s now c).2.storage = s.storage := by
  unfold getPremiumCodeInfo getPremiumCodeInfoMiss
  cases hg : s.cache.get now (getCacheKey "premiumCodeInfo" c) with
  | none => rfl
  | some v =>
      cases hv : (v == CacheVal.undef)
      · simp only [hv, Bool.false_eq_true, if_false]
      · simp only [hv, if_true]

theorem codes_extendPremium_ok (s : EngineState) (now : Int) (e : String) (d : Int)
    (s1 : EngineState) (hx : extendPremium s now e d = Except.ok s1) :
    s1.storage.codes = s.storage.codes := by
  unfold extendPremium at hx
  cases hf : s.storage.findPremium e with
  | none => rw [hf] at hx; cases hx
  | some ent =>
      rw [hf] at hx
      dsimp only at hx
      cases hb : ent.isPremium with
      | false => rw [hb] at hx; simp at hx
      | true =>
          rw [hb] at hx
          simp only [Bool.not_true, Bool.false_eq_true, if_false] at hx
          cases hx
          simp [Storage.codes_savePremium]

theorem storage_preloadPremiums (now : Int) (l : List IPremium) (s : EngineState) :
    (preloadPremiums now l s).storage = s.storage := by
  induction l generalizing s with
  | nil => rfl
  | cons p rest ih =>
      unfold preloadPremiums at ih ⊢
      rw [List.foldl_cons]
      rw [ih]

theorem storage_preloadCodes (now : Int) (l : List IPremiumCode) (s : EngineState) :
    (preloadCodes now l s).storage = s.storage := by
  induction l generalizing s with
  | nil => rfl
  | cons c rest ih =>
      unfold preloadCodes at ih ⊢
      rw [List.foldl_cons]
      rw [ih]

theorem storage_preloadTables (s : EngineState) (now : Int) :
    (preloadTables s now).storage = s.storage := by
  unfold preloadTables
  rw [storage_preloadCodes, storage_preloadPremiums]

theorem storage_clearCache (s : EngineState) (now : Int) :
    (clearCache s now).storage = s.storage := by
  unfold clearCache
  split
  · rw [storage_preloadTables]
  · rfl

end PremiumManager

theorem codeInv_applyOp (s : EngineState) (op : Op) (h : CodeInv s.storage) :
    CodeInv (applyOp s op).storage := by
  cases op with
  | isPremium now e =>
      simp only [applyOp]
      exact codeInv_of_codes_eq _ _ (PremiumManager.codes_isPremium s now e) h
  | addPremium now e d a =>
      simp only [applyOp]
      exact codeInv_of_codes_eq _ _ (PremiumManager.codes_addPremium s now e d a) h
  | removePremium e =>
      simp only [applyOp]
      exact codeInv_of_codes_eq _ _ (PremiumManager.codes_removePremium s e) h
  | getPremiumStatus now e =>
      simp only [applyOp]
      exact codeInv_of_codes_eq _ _
        (by rw [PremiumManager.storage_getPremiumStatus]) h
  | getPremiumTimeRemaining now e =>
      simp only [applyOp]
      exact codeInv_of_codes_eq _ _
        (by rw [PremiumManager.snd_getPremiumTimeRemaining,
          PremiumManager.storage_getPremiumStatus]) h
  | createPremiumCode now gen cb d m =>
      simp only [applyOp]
      exact codeInv_savePremiumCode s.storage _ h (Nat.zero_le _)
  | redeemPremiumCode now e c r =>
      simp only [applyOp]
      unfold PremiumManager.redeemPremiumCode
      cases hf : s.storage.findPremiumCode c with
      | none => exact h
      | some pc =>
          dsimp only
          by_cases hcap : pc.maxActivations ≤ pc.activations.length
          · rw [if_pos hcap]
            exact h
          · rw [if_neg hcap]
            have hlen : pc.activations.length + 1 ≤ pc.maxActivations := by omega
            refine codeInv_of_codes_eq _ _
              (PremiumManager.codes_addPremium _ now e pc.duration r) ?_
            exact codeInv_savePremiumCode s.storage _ h (by simpa using hlen)
  | checkExpiredPremiums now =>
      simp only [applyOp]
      exact codeInv_of_codes_eq _ _ (PremiumManager.codes_checkExpiredPremiums s now) h
  | getPremiumCodeInfo now c =>
      simp only [applyOp]
      exact codeInv_of_codes_eq _ _
        (by rw [PremiumManager.storage_getPremiumCodeInfo]) h
  | extendPremium now e d =>
      simp only [applyOp]
      cases hx : PremiumManager.extendPremium s now e d with
      | error msg => exact h
      | ok s1 =>
          exact codeInv_of_codes_eq _ _
            (PremiumManager.codes_extendPremium_ok s now e d s1 hx) h
  | clearCache now =>
      simp only [applyOp]
      exact codeInv_of_codes_eq _ _
        (by rw [PremiumManager.storage_clearCache]) h

theorem codeInv_runOps (ops : List Op) (s : EngineState) (h : CodeInv s.storage) :
    CodeInv (runOps s ops).storage := by
  induction ops generalizing s with
  | nil => exact h
  | cons op rest ih =>
      exact ih (applyOp s op) (codeInv_applyOp s op h)

/-! ## Claim theorems -/

/-- Claim C1: in every state reachable by sequential engine operations
starting from empty storage, every stored redemption code satisfies
`activations.length <= maxActivations`; and `redeemPremiumCode` returns
false and mutates neither the code record nor any entitlement whenever the
code is unknown or `activations.length >= maxActivations`. -/
theorem redeemPremiumCode_capacity_invariant
    (cfg : Config) (ops : List Op)
    (s : EngineState) (now : Int) (entityId code redeemedBy : String)
    (h : s.storage.findPremiumCode code = none ∨
      ∃ pc, s.storage.findPremiumCode code = some pc ∧
        pc.maxActivations ≤ pc.activations.length) :
    CodeInv (runOps (PremiumManager.construct cfg emptyStorage) ops).storage ∧
    PremiumManager.redeemPremiumCode s now entityId code redeemedBy = (false, s) := by
  constructor
  · refine codeInv_runOps ops _ ?_
    intro c hc
    simp [PremiumManager.construct, emptyStorage] at hc
  · unfold PremiumManager.redeemPremiumCode
    rcases h with h1 | ⟨pc, h1, h2⟩
    · rw [h1]
    · rw [h1]
      dsimp only
      rw [if_pos h2]

/-- Witness for C1: the concrete history `opsW` (create a single-use code,
redeem it twice) keeps the invariant, and redeeming the already-full code
once more is rejected without mutation. -/
theorem redeemPremiumCode_capacity_invariant_witness :
    CodeInv (runOps (PremiumManager.construct cfgW emptyStorage) opsW).storage ∧
    PremiumManager.redeemPremiumCode (runOps s0W opsW) 5 "g" "abc" "r" =
      (false, runOps s0W opsW) :=
  redeemPremiumCode_capacity_invariant cfgW opsW (runOps s0W opsW) 5 "g" "abc" "r"
    (Or.inr ⟨⟨"abc", 30, 1, [⟨"e", 1⟩], "admin", 0⟩, by decide, by decide⟩)

/-- Claim C2 (code bug): the two storage implementations disagree on
`savePremiumCode` over an existing key — `LocalStorage` merges the record
in place, while `MongoStorage` calls `Model.create`, which inserts and
(under the schema's unique index on `code`) raises a duplicate-key error,
never updating.  Both agree on inserting a fresh key. -/
theorem savePremiumCode_backend_divergence :
    LocalStorage.savePremiumCode [codeA] codeA2 = [codeA2] ∧
    MongoStorage.savePremiumCode [codeA] codeA2 = Except.error MongoError.duplicateKey ∧
    LocalStorage.savePremiumCode [] codeA = [codeA] ∧
    MongoStorage.savePremiumCode [] codeA = Except.ok [codeA] := by
  refine ⟨by decide, by decide, by decide, by decide⟩

/-- Claim C6 (code bug): with `preloadTables := true` configured and
non-empty storage, constructing the manager performs no warm — the cache
comes up empty, with none of the three key categories populated — whereas
`clearCache` does flush and then warm all three key categories. -/
theorem construct_performs_no_preload :
    (PremiumManager.construct cfgC6 stC6).cache.data = [] ∧
    (PremiumManager.construct cfgC6 stC6).cache.get 0
      (PremiumManager.getCacheKey "isPremium" "e") = none ∧
    (PremiumManager.construct cfgC6 stC6).cache.get 0
      (PremiumManager.getCacheKey "premiumStatus" "e") = none ∧
    (PremiumManager.construct cfgC6 stC6).cache.get 0
      (PremiumManager.getCacheKey "premiumCodeInfo" "abc") = none ∧
    (PremiumManager.clearCache (PremiumManager.construct cfgC6 stC6) 0).cache.get 0
      (PremiumManager.getCacheKey "isPremium" "e") = some (CacheVal.bool true) ∧
    (PremiumManager.clearCache (PremiumManager.construct cfgC6 stC6) 0).cache.get 0
      (PremiumManager.getCacheKey "premiumStatus" "e") =
        some (CacheVal.prem (some ⟨"e", true, some 86400000, some "a", some 0⟩)) ∧
    (PremiumManager.clearCache (PremiumManager.construct cfgC6 stC6) 0).cache.get 0
      (PremiumManager.getCacheKey "premiumCodeInfo" "abc") =
        some (CacheVal.codeInfo (some codeA)) := by
  decide

theorem stdTTL_removePremium (s : EngineState) (e : String) :
    (PremiumManager.removePremium s e).cache.stdTTL = s.cache.stdTTL := by
  unfold PremiumManager.removePremium
  cases hf : s.storage.findPremium e
  · rfl
  · rfl

theorem isPremiumMiss_found (s : EngineState) (now : Int) (entityId k : String)
    (e : IPremium) (hf : s.storage.findPremium entityId = some e) :
    PremiumManager.isPremiumMiss s now entityId k =
      (PremiumManager.effectiveStatus e now,
       { (if !(PremiumManager.effectiveStatus e now) && e.isPremium then
            PremiumManager.removePremium s entityId else s) with
          cache := (if !(PremiumManager.effectiveStatus e now) && e.isPremium then
            PremiumManager.removePremium s entityId else s).cache.set now k
            (CacheVal.bool (PremiumManager.effectiveStatus e now)) },
       true) := by
  unfold PremiumManager.isPremiumMiss
  rw [hf]

theorem isPremiumMiss_consults (s : EngineState) (now : Int) (entityId k : String) :
    (PremiumManager.isPremiumMiss s now entityId k).2.2 = true := by
  unfold PremiumManager.isPremiumMiss
  cases hf : s.storage.findPremium entityId
  · rfl
  · rfl

/-- Claim C3 counterexample: in a reachable state where the (unbounded
TTL) cache still holds `true` for entity `e`, the stored entitlement is
flagged premium with an expiry in the past, yet `isPremium` returns true
from the cache and performs no removal, no persistence and no event — the
claim as stated (without a cache-miss hypothesis) is false. -/
theorem isPremium_lazyexpiry_stale_cache_counterexample :
    Storage.findPremium sC3.storage "e" =
      some ⟨"e", true, some 86400000, some "a", some 0⟩ ∧
    (86400000 : Int) ≤ 86400001 ∧
    PremiumManager.isPremium sC3 86400001 "e" = (true, sC3, false) := by
  decide

/-- Claim C3 (amended with the cache-miss hypothesis the spec's "On miss:"
wording carries): when the `isPremium` cache lookup misses (absent key or
a stored `undefined`), the stored entitlement is flagged premium and its
expiry is not in the future, `isPremium` runs the `removePremium` path —
persisting `isPremium = false`, `expiresAt = null`, deleting the two cache
entries (the `isPremium` entry is then re-populated with the final boolean
`false`), emitting `premiumRemoved` — and returns false. -/
theorem isPremium_lazy_expiry_removal
    (s : EngineState) (now t : Int) (entityId : String) (e : IPremium)
    (httl : 0 ≤ s.cache.stdTTL)
    (hmiss : s.cache.get now (PremiumManager.getCacheKey "isPremium" entityId) = none ∨
      s.cache.get now (PremiumManager.getCacheKey "isPremium" entityId) = some CacheVal.undef)
    (hf : s.storage.findPremium entityId = some e)
    (hp : e.isPremium = true) (ht : e.expiresAt = some t) (hle : t ≤ now) :
    ∃ s2, PremiumManager.isPremium s now entityId = (false, s2, true) ∧
      s2.storage.findPremium entityId =
        some { e with isPremium := false, expiresAt := none } ∧
      s2.cache.get now (PremiumManager.getCacheKey "premiumStatus" entityId) = none ∧
      s2.cache.get now (PremiumManager.getCacheKey "isPremium" entityId) =
        some (CacheVal.bool false) ∧
      s2.events = s.events ++ [Event.premiumRemoved entityId] := by
  have hkey : e.entityId = entityId := Storage.findPremium_key s.storage entityId e hf
  have hlt : (decide (now < t)) = false := by
    simp only [decide_eq_false_iff_not]
    omega
  have hmisseq : PremiumManager.isPremiumMiss s now entityId
      (PremiumManager.getCacheKey "isPremium" entityId) =
      (false,
       { config := s.config
         storage := s.storage.savePremium { e with isPremium := false, expiresAt := none }
         cache := ((s.cache.del (PremiumManager.getCacheKey "isPremium" entityId)).del
           (PremiumManager.getCacheKey "premiumStatus" entityId)).set now
           (PremiumManager.getCacheKey "isPremium" entityId) (CacheVal.bool false)
         events := s.events ++ [Event.premiumRemoved entityId] }, true) := by
    simp only [PremiumManager.isPremiumMiss, PremiumManager.effectiveStatus, hf, hp, ht, hlt,
      Bool.and_false, Bool.not_false, Bool.and_true, if_true, PremiumManager.removePremium]
  refine ⟨{ config := s.config
            storage := s.storage.savePremium { e with isPremium := false, expiresAt := none }
            cache := ((s.cache.del (PremiumManager.getCacheKey "isPremium" entityId)).del
              (PremiumManager.getCacheKey "premiumStatus" entityId)).set now
              (PremiumManager.getCacheKey "isPremium" entityId) (CacheVal.bool false)
            events := s.events ++ [Event.premiumRemoved entityId] }, ?_, ?_, ?_, ?_, ?_⟩
  · unfold PremiumManager.isPremium
    rcases hmiss with hm | hm
    · rw [hm]
      exact hmisseq
    · rw [hm]
      simp only [beq_self_eq_true, if_true]
      exact hmisseq
  · rw [← hkey]
    exact Storage.findPremium_savePremium_self s.storage _
  · rw [NodeCache.get_set_ne _ _ _ _ _ _ (key_isPremium_ne_premiumStatus entityId).symm]
    exact NodeCache.get_del_self _ now _
  · exact NodeCache.get_set_self _ now _ _ httl
  · rfl

/-- Witness for the amended C3 at a concrete reachable state: a one-day
grant queried well after expiry with an empty cache. -/
theorem isPremium_lazy_expiry_removal_witness :
    ∃ s2, PremiumManager.isPremium sGrant1 90000000 "e" = (false, s2, true) ∧
      s2.storage.findPremium "e" =
        some { entGrant1 with isPremium := false, expiresAt := none } ∧
      s2.cache.get 90000000 (PremiumManager.getCacheKey "premiumStatus" "e") = none ∧
      s2.cache.get 90000000 (PremiumManager.getCacheKey "isPremium" "e") =
        some (CacheVal.bool false) ∧
      s2.events = sGrant1.events ++ [Event.premiumRemoved "e"] :=
  isPremium_lazy_expiry_removal sGrant1 90000000 86400000 "e" entGrant1
    (by decide) (Or.inl (by decide)) (by decide) (by decide) (by decide) (by decide)

/-- Claim C5 counterexample: for an entitlement whose stored flag is true
but whose expiry is in the past (not effectively premium), the code
returns `some 0`, not null as the claim states. -/
theorem getPremiumTimeRemaining_expired_counterexample :
    Storage.findPremium sGrant1.storage "e" = some entGrant1 ∧
    entGrant1.isPremium = true ∧ entGrant1.expiresAt = some 86400000 ∧
    (86400000 : Int) < 172800000 ∧
    (PremiumManager.getPremiumTimeRemaining sGrant1 172800000 "e").1 = some 0 := by
  decide

/-- Claim C5 (amended): `getPremiumTimeRemaining` returns null exactly when
the status record (as produced by `getPremiumStatus`) is absent, its stored
flag is false, or it has no expiry — the raw flag, not the effective
status, is checked; when the flag is set and an expiry exists the result is
`max 0 (ceil((expiresAt - now) / 86400000)))` (so an expiry in the past
yields 0, not null), and the returned number is never negative. -/
theorem getPremiumTimeRemaining_amended (s : EngineState) (now : Int) (entityId : String) :
    (∀ n, (PremiumManager.getPremiumTimeRemaining s now entityId).1 = some n → 0 ≤ n) ∧
    ((PremiumManager.getPremiumStatus s now entityId).1 = none →
      (PremiumManager.getPremiumTimeRemaining s now entityId).1 = none) ∧
    (∀ r, (PremiumManager.getPremiumStatus s now entityId).1 = some r →
      r.isPremium = false ∨ r.expiresAt = none →
      (PremiumManager.getPremiumTimeRemaining s now entityId).1 = none) ∧
    (∀ r t, (PremiumManager.getPremiumStatus s now entityId).1 = some r →
      r.isPremium = true → r.expiresAt = some t →
      (PremiumManager.getPremiumTimeRemaining s now entityId).1 =
        some (max 0 (ceilDiv (t - now) 86400000))) := by
  rcases hs : PremiumManager.getPremiumStatus s now entityId with ⟨status, s1⟩
  refine ⟨?_, ?_, ?_, ?_⟩
  · intro n hn
    unfold PremiumManager.getPremiumTimeRemaining at hn
    simp only [hs] at hn
    cases status with
    | none => simp at hn
    | some st =>
        cases hb : st.isPremium with
        | false => simp [hb] at hn
        | true =>
            simp only [hb, Bool.not_true, Bool.false_eq_true, if_false] at hn
            cases hexp : st.expiresAt with
            | none => rw [hexp] at hn; simp at hn
            | some t =>
                rw [hexp] at hn
                simp at hn
                subst hn
                exact le_max_left 0 _
  · intro h2
    simp only at h2
    subst h2
    unfold PremiumManager.getPremiumTimeRemaining
    simp only [hs]
  · intro r hr hcond
    simp only at hr
    subst hr
    unfold PremiumManager.getPremiumTimeRemaining
    simp only [hs]
    rcases hcond with hb | hx
    · simp [hb]
    · cases hbb : r.isPremium with
      | false => simp [hbb]
      | true => simp [hbb, hx]
  · intro r t hr hp hexp
    simp only at hr
    subst hr
    unfold PremiumManager.getPremiumTimeRemaining
    simp only [hs]
    simp [hp, hexp]

/-- Witness for the amended C5: a fresh 30-day grant queried at time 0
yields exactly 30 days remaining. -/
theorem getPremiumTimeRemaining_amended_witness :
    (PremiumManager.getPremiumTimeRemaining sGrant30 0 "e").1 =
      some (max 0 (ceilDiv (2592000000 - 0) 86400000)) ∧
    max (0 : Int) (ceilDiv (2592000000 - 0) 86400000) = 30 := by
  constructor
  · exact (getPremiumTimeRemaining_amended sGrant30 0 "e").2.2.2 entGrant30 2592000000
      (by decide) (by decide) (by decide)
  · decide

/-- Claim C8: `extendPremium` raises "Entity is not premium" — with no
persistence, cache change or event (the error return carries no state) —
when the entity is unknown or its stored flag is false; otherwise it
persists `expiresAt` equal to exactly the previous expiry plus
`days * 86400000` ms (or now plus that amount when the expiry was null),
deletes the `isPremium` and `premiumStatus` cache entries, and emits
`premiumExtended` with the new expiry. -/
theorem extendPremium_spec
    (s : EngineState) (now : Int) (entityId : String) (days : Int) :
    ((s.storage.findPremium entityId = none ∨
      (∃ e, s.storage.findPremium entityId = some e ∧ e.isPremium = false)) →
      PremiumManager.extendPremium s now entityId days =
        Except.error "Entity is not premium") ∧
    (∀ e t, s.storage.findPremium entityId = some e → e.isPremium = true →
      e.expiresAt = some t →
      ∃ s2, PremiumManager.extendPremium s now entityId days = Except.ok s2 ∧
        s2.storage.findPremium entityId =
          some { e with expiresAt := some (t + days * 86400000) } ∧
        s2.cache.get now (PremiumManager.getCacheKey "isPremium" entityId) = none ∧
        s2.cache.get now (PremiumManager.getCacheKey "premiumStatus" entityId) = none ∧
        s2.events = s.events ++ [Event.premiumExtended entityId (t + days * 86400000)]) ∧
    (∀ e, s.storage.findPremium entityId = some e → e.isPremium = true →
      e.expiresAt = none →
      ∃ s2, PremiumManager.extendPremium s now entityId days = Except.ok s2 ∧
        s2.storage.findPremium entityId =
          some { e with expiresAt := some (now + days * 86400000) } ∧
        s2.cache.get now (PremiumManager.getCacheKey "isPremium" entityId) = none ∧
        s2.cache.get now (PremiumManager.getCacheKey "premiumStatus" entityId) = none ∧
        s2.events = s.events ++ [Event.premiumExtended entityId (now + days * 86400000)]) := by
  refine ⟨?_, ?_, ?_⟩
  · intro h
    rcases h with h1 | ⟨e, h1, h2⟩
    · unfold PremiumManager.extendPremium
      rw [h1]
    · unfold PremiumManager.extendPremium
      rw [h1]
      simp only [h2, Bool.not_false, if_true]
  · intro e t hf hp ht
    refine ⟨{ config := s.config
              storage := s.storage.savePremium { e with expiresAt := some (t + days * 86400000) }
              cache := (s.cache.del (PremiumManager.getCacheKey "isPremium" entityId)).del
                (PremiumManager.getCacheKey "premiumStatus" entityId)
              events := s.events ++ [Event.premiumExtended entityId (t + days * 86400000)] },
            ?_, ?_, ?_, ?_, ?_⟩
    · unfold PremiumManager.extendPremium
      rw [hf]
      simp only [hp, ht, Bool.not_true, Bool.false_eq_true, if_false]
    · rw [← Storage.findPremium_key s.storage entityId e hf]
      exact Storage.findPremium_savePremium_self s.storage _
    · rw [NodeCache.get_del_ne _ _ _ _ (key_isPremium_ne_premiumStatus entityId)]
      exact NodeCache.get_del_self _ now _
    · exact NodeCache.get_del_self _ now _
    · rfl
  · intro e hf hp ht
    refine ⟨{ config := s.config
              storage := s.storage.savePremium { e with expiresAt := some (now + days * 86400000) }
              cache := (s.cache.del (PremiumManager.getCacheKey "isPremium" entityId)).del
                (PremiumManager.getCacheKey "premiumStatus" entityId)
              events := s.events ++ [Event.premiumExtended entityId (now + days * 86400000)] },
            ?_, ?_, ?_, ?_, ?_⟩
    · unfold PremiumManager.extendPremium
      rw [hf]
      simp only [hp, ht, Bool.not_true, Bool.false_eq_true, if_false]
    · rw [← Storage.findPremium_key s.storage entityId e hf]
      exact Storage.findPremium_savePremium_self s.storage _
    · rw [NodeCache.get_del_ne _ _ _ _ (key_isPremium_ne_premiumStatus entityId)]
      exact NodeCache.get_del_self _ now _
    · exact NodeCache.get_del_self _ now _
    · rfl

/-- Witness for C8: extending an unknown entity errors; extending a
30-day grant by 5 days yields exactly the old expiry plus 5 days. -/
theorem extendPremium_spec_witness :
    PremiumManager.extendPremium s0W 0 "ghost" 5 = Except.error "Entity is not premium" ∧
    ∃ s2, PremiumManager.extendPremium sGrant30 100 "e" 5 = Except.ok s2 ∧
      s2.storage.findPremium "e" =
        some { entGrant30 with expiresAt := some (2592000000 + 5 * 86400000) } ∧
      s2.cache.get 100 (PremiumManager.getCacheKey "isPremium" "e") = none ∧
      s2.cache.get 100 (PremiumManager.getCacheKey "premiumStatus" "e") = none ∧
      s2.events = sGrant30.events ++ [Event.premiumExtended "e" (2592000000 + 5 * 86400000)] :=
  ⟨(extendPremium_spec s0W 0 "ghost" 5).1 (Or.inl (by decide)),
   (extendPremium_spec sGrant30 100 "e" 5).2.1 entGrant30 2592000000
     (by decide) (by decide) (by decide)⟩

/-- Claim C10: when `duration` is omitted or falsy (and likewise
`maxActivations`), the persisted code record carries the configured
defaults, while the emitted `premiumCodeCreated` event carries the raw
`duration` argument as passed, not the defaulted value. -/
theorem createPremiumCode_defaults
    (s : EngineState) (now : Int) (generated createdBy : String)
    (duration : Option Int) (maxActs : Option Nat)
    (hdur : duration = none ∨ duration = some 0)
    (hmax : maxActs = none ∨ maxActs = some 0) :
    ∃ s1, PremiumManager.createPremiumCode s now generated createdBy duration maxActs =
        (generated, s1) ∧
      s1.storage.findPremiumCode generated = some
        { code := generated
          duration := s.config.defaultPremiumDuration
          maxActivations := s.config.maxActivationsPerCode
          activations := []
          createdBy := createdBy
          createdAt := now } ∧
      s1.events = s.events ++ [Event.premiumCodeCreated generated duration createdBy] := by
  have hd : jsOrInt duration s.config.defaultPremiumDuration =
      s.config.defaultPremiumDuration := by
    rcases hdur with h | h <;> simp [h, jsOrInt]
  have hm : jsOrNat maxActs s.config.maxActivationsPerCode =
      s.config.maxActivationsPerCode := by
    rcases hmax with h | h <;> simp [h, jsOrNat]
  refine ⟨{ config := s.config
            storage := s.storage.savePremiumCode
              { code := generated
                duration := s.config.defaultPremiumDuration
                maxActivations := s.config.maxActivationsPerCode
                activations := []
                createdBy := createdBy
                createdAt := now }
            cache := s.cache
            events := s.events ++ [Event.premiumCodeCreated generated duration createdBy] },
          ?_, ?_, ?_⟩
  · unfold PremiumManager.createPremiumCode
    rw [hd, hm]
  · exact Storage.findPremiumCode_savePremiumCode_self s.storage _
  · rfl

/-- Witness for C10: `createPremiumCode` with `duration` omitted and
`maxActivations = 0` stores the defaults (30, 1) and emits the raw
(undefined) duration. -/
theorem createPremiumCode_defaults_witness :
    ∃ s1, PremiumManager.createPremiumCode s0W 0 "abc" "admin" none (some 0) =
        ("abc", s1) ∧
      s1.storage.findPremiumCode "abc" = some
        { code := "abc", duration := 30, maxActivations := 1,
          activations := [], createdBy := "admin", createdAt := 0 } ∧
      s1.events = s0W.events ++ [Event.premiumCodeCreated "abc" none "admin"] :=
  createPremiumCode_defaults s0W 0 "abc" "admin" none (some 0) (Or.inl rfl) (Or.inr rfl)

/-- Claim C4 counterexample: with two subscribed `premiumAdded`
listeners of which the first throws, the emitting `addPremium` terminates
by rethrowing (it does not complete normally) and the second listener is
never invoked — the claim as stated is false. -/
theorem listener_exception_aborts_counterexample :
    (addPremiumWithListeners s0W 0 "e" 30 "a" [⟨0, false⟩, ⟨1, true⟩]).threw = some 0 ∧
    (addPremiumWithListeners s0W 0 "e" 30 "a" [⟨0, false⟩, ⟨1, true⟩]).invoked = [0] := by
  decide

/-- Claim C4 (amended): the engine calls `EventEmitter.emit` with no
per-listener isolation, so when the listener list is `pre ++ bad :: post`
with every listener in `pre` well-behaved and `bad` throwing, exactly the
listeners of `pre` and then `bad` are invoked, the exception propagates
out of the emitting operation (here `addPremium`), and the storage write
and cache invalidation performed before `emit` are already in effect. -/
theorem emit_listener_exception_propagates
    (s : EngineState) (now : Int) (entityId : String) (duration : Int) (activatedBy : String)
    (pre post : List Listener) (bad : Listener)
    (hpre : ∀ l ∈ pre, l.ok = true) (hbad : bad.ok = false) :
    emitToListeners (pre ++ bad :: post) = (pre.map Listener.id ++ [bad.id], some bad.id) ∧
    (addPremiumWithListeners s now entityId duration activatedBy (pre ++ bad :: post)).threw =
      some bad.id ∧
    (addPremiumWithListeners s now entityId duration activatedBy (pre ++ bad :: post)).state =
      PremiumManager.addPremium s now entityId duration activatedBy := by
  have hemit : ∀ pre2 : List Listener, (∀ l ∈ pre2, l.ok = true) →
      emitToListeners (pre2 ++ bad :: post) =
        (pre2.map Listener.id ++ [bad.id], some bad.id) := by
    intro pre2
    induction pre2 with
    | nil =>
        intro _
        simp [emitToListeners, hbad]
    | cons l rest ih =>
        intro hp
        have hl : l.ok = true := hp l (by simp)
        have hrest : ∀ x ∈ rest, x.ok = true := fun x hx => hp x (List.mem_cons_of_mem _ hx)
        simp [emitToListeners, hl, ih hrest]
  refine ⟨hemit pre hpre, ?_, ?_⟩
  · simp only [addPremiumWithListeners, hemit pre hpre]
  · rfl

/-- Witness for the amended C4 at a concrete three-listener list. -/
theorem emit_listener_exception_propagates_witness :
    emitToListeners [⟨5, true⟩, ⟨7, false⟩, ⟨9, true⟩] = ([5, 7], some 7) ∧
    (addPremiumWithListeners s0W 0 "e" 30 "a" [⟨5, true⟩, ⟨7, false⟩, ⟨9, true⟩]).threw =
      some 7 ∧
    (addPremiumWithListeners s0W 0 "e" 30 "a" [⟨5, true⟩, ⟨7, false⟩, ⟨9, true⟩]).state =
      PremiumManager.addPremium s0W 0 "e" 30 "a" :=
  emit_listener_exception_propagates s0W 0 "e" 30 "a" [⟨5, true⟩] [⟨9, true⟩] ⟨7, false⟩
    (by decide) (by decide)

/-- Claim C7 (code bug): the storage-contract / Mongo-side query selects
exactly the premium-flagged entitlements with `expiresAt < now`, and
`checkExpiredPremiums` removes them; but `LocalStorage.findExpiredPremiums`
compares the JSON-parsed ISO date *string* against a `Date` — JS coerces
both sides to numbers and `ToNumber(ISO string)` is NaN (hypothesis `h`),
so the comparison is always false and the local backend never selects (so
never removes) anything.  The two backends disagree on the same data. -/
theorem checkExpiredPremiums_local_divergence
    (toNum : String → Option Int) (h : toNum isoStr = none) :
    Storage.findExpiredPremiums ⟨[premC7], []⟩ nowC7 = [premC7] ∧
    (PremiumManager.checkExpiredPremiums
        (PremiumManager.construct cfgW ⟨[premC7], []⟩) nowC7).storage.findPremium "e" =
      some { premC7 with isPremium := false, expiresAt := none } ∧
    LocalStorage.findExpiredPremiums toNum localFileC7 nowC7 = [] := by
  have hne : (isoStr == "") = false := by decide
  refine ⟨by decide, by decide, ?_⟩
  simp [LocalStorage.findExpiredPremiums, localFileC7, jsLtStringDate, h, hne]

/-- Witness for C7 with the ToNumber model that sends every string to
NaN (true of the ISO strings stored in the file). -/
theorem checkExpiredPremiums_local_divergence_witness :
    LocalStorage.findExpiredPremiums (fun _ => none) localFileC7 nowC7 = [] :=
  (checkExpiredPremiums_local_divergence (fun _ => none) rfl).2.2

theorem isPremium_hit (s : EngineState) (now : Int) (entityId : String) (b : Bool)
    (hget : s.cache.get now (PremiumManager.getCacheKey "isPremium" entityId) =
      some (CacheVal.bool b)) :
    PremiumManager.isPremium s now entityId = (b, s, false) := by
  have hne : (CacheVal.bool b == CacheVal.undef) = false := by
    cases b <;> decide
  unfold PremiumManager.isPremium
  rw [hget]
  simp only [hne, Bool.false_eq_true, if_false]
  rfl

/-- Claim C9 counterexample: for an entity that was never granted
premium, the first `isPremium` call stores the raw `undefined` result —
which the hit test `cachedResult !== undefined` cannot distinguish from a
miss — so an immediately repeated call consults storage again; the claim
as stated (caching "including for an entity never granted premium", with
the cached value distinguishable from a miss) is false. -/
theorem isPremium_absent_entity_caching_counterexample :
    Storage.findPremium s0W.storage "e" = none ∧
    PremiumManager.isPremium s0W 0 "e" = (false, s9a, true) ∧
    s9a.cache.get 0 (PremiumManager.getCacheKey "isPremium" "e") = some CacheVal.undef ∧
    (PremiumManager.isPremium s9a 0 "e").2.2 = true := by
  decide

/-- Claim C9 (amended): after a missing `isPremium` lookup, when the
entity has a stored record the final boolean is cached under the entity's
key as a value distinguishable from a miss, and an immediately repeated
call returns it without consulting storage; but when no record is stored,
the value cached is `undefined`, indistinguishable from a miss, and a
repeated call consults storage again. -/
theorem isPremium_caching_amended
    (s : EngineState) (now : Int) (entityId : String)
    (httl : 0 ≤ s.cache.stdTTL)
    (hmiss : s.cache.get now (PremiumManager.getCacheKey "isPremium" entityId) = none ∨
      s.cache.get now (PremiumManager.getCacheKey "isPremium" entityId) =
        some CacheVal.undef) :
    (∀ e, s.storage.findPremium entityId = some e →
      ∃ b s1, PremiumManager.isPremium s now entityId = (b, s1, true) ∧
        s1.cache.get now (PremiumManager.getCacheKey "isPremium" entityId) =
          some (CacheVal.bool b) ∧
        PremiumManager.isPremium s1 now entityId = (b, s1, false)) ∧
    (s.storage.findPremium entityId = none →
      ∃ s1, PremiumManager.isPremium s now entityId = (false, s1, true) ∧
        s1.cache.get now (PremiumManager.getCacheKey "isPremium" entityId) =
          some CacheVal.undef ∧
        (PremiumManager.isPremium s1 now entityId).2.2 = true) := by
  have hcallmiss : PremiumManager.isPremium s now entityId =
      PremiumManager.isPremiumMiss s now entityId
        (PremiumManager.getCacheKey "isPremium" entityId) := by
    unfold PremiumManager.isPremium
    rcases hmiss with hm | hm
    · rw [hm]
    · rw [hm]
      simp only [beq_self_eq_true, if_true]
  constructor
  · intro e hf
    have hstd : 0 ≤ (if !(PremiumManager.effectiveStatus e now) && e.isPremium then
        PremiumManager.removePremium s entityId else s).cache.stdTTL := by
      split
      · rw [stdTTL_removePremium]
        exact httl
      · exact httl
    have hget : ({ (if !(PremiumManager.effectiveStatus e now) && e.isPremium then
          PremiumManager.removePremium s entityId else s) with
        cache := (if !(PremiumManager.effectiveStatus e now) && e.isPremium then
          PremiumManager.removePremium s entityId else s).cache.set now
          (PremiumManager.getCacheKey "isPremium" entityId)
          (CacheVal.bool (PremiumManager.effectiveStatus e now)) } : EngineState).cache.get
        now (PremiumManager.getCacheKey "isPremium" entityId) =
        some (CacheVal.bool (PremiumManager.effectiveStatus e now)) :=
      NodeCache.get_set_self _ now _ _ hstd
    refine ⟨PremiumManager.effectiveStatus e now,
      { (if !(PremiumManager.effectiveStatus e now) && e.isPremium then
          PremiumManager.removePremium s entityId else s) with
        cache := (if !(PremiumManager.effectiveStatus e now) && e.isPremium then
          PremiumManager.removePremium s entityId else s).cache.set now
          (PremiumManager.getCacheKey "isPremium" entityId)
          (CacheVal.bool (PremiumManager.effectiveStatus e now)) }, ?_, hget, ?_⟩
    · rw [hcallmiss]
      exact isPremiumMiss_found s now entityId _ e hf
    · exact isPremium_hit _ now entityId _ hget
  · intro hf
    have hget : ({ s with cache := s.cache.set now (PremiumManager.getCacheKey "isPremium" entityId) CacheVal.undef } :
        EngineState).cache.get now (PremiumManager.getCacheKey "isPremium" entityId) =
        some CacheVal.undef :=
      NodeCache.get_set_self _ now _ _ httl
    refine ⟨{ s with cache := s.cache.set now (PremiumManager.getCacheKey "isPremium" entityId) CacheVal.undef },
      ?_, hget, ?_⟩
    · rw [hcallmiss]
      unfold PremiumManager.isPremiumMiss
      rw [hf]
    · unfold PremiumManager.isPremium
      rw [hget]
      simp only [beq_self_eq_true, if_true]
      exact isPremiumMiss_consults _ now entityId _

/-- Witness for the amended C9 at a fresh 30-day grant: the second
call is served from the cache without a storage read. -/
theorem isPremium_caching_amended_witness :
    ∃ b s1, PremiumManager.isPremium sGrant30 0 "e" = (b, s1, true) ∧
      s1.cache.get 0 (PremiumManager.getCacheKey "isPremium" "e") =
        some (CacheVal.bool b) ∧
      PremiumManager.isPremium s1 0 "e" = (b, s1, false) :=
  (isPremium_caching_amended sGrant30 0 "e" (by decide) (Or.inl (by decide))).1
    entGrant30 (by decide)
